import Mathlib

/-!
Verification of the httpbackoff retry library.

The repository provides `Retry`, which repeatedly invokes a caller-supplied
HTTP operation using an exponential-backoff scheduler, classifying each
outcome as retryable (network failure, 5xx) or terminal (2xx success, other
statuses permanent).

Embedding choices:
* An HTTP response is represented by its status code (the only field the
  retry engine reads is `StatusCode`).
* The caller-supplied operation `httpCall` is represented by the sequence of
  results its successive invocations return: a function `Nat → HttpCallResult`
  giving the result of the k-th invocation (k = 0, 1, ...).
* The external backoff scheduler is abstracted by the sequence of decisions
  its `NextBackOff` method returns: since the retry loop only distinguishes
  "a wait was granted" from "Stop", a run of the scheduler is summarised by
  `grants : Nat`, the number of waits it grants before returning Stop.
  Quantifying over `grants` quantifies over all terminating scheduler runs.
* A nil-pointer dereference (reading `StatusCode` of a nil response) does not
  return; it is modelled by the `crash` result.
-/

namespace Httpbackoff

/-- An HTTP response, as far as the retry engine inspects it: Go's
`http.Response` read only through its `StatusCode` field. -/
structure Response where
  StatusCode : Nat
deriving DecidableEq, Repr

/-- Go `error` values that flow through this library: an opaque error
returned by the operation itself (e.g. a network failure, carrying no
status code), or the library's structured `BadHttpResponseCode` error
(src/httpbackoff.go lines 60-68), which carries the HTTP status code
and a message. -/
inductive GoError where
  | netErr (msg : String)
  | badHttpResponseCode (HttpResponseCode : Nat) (Message : String)
deriving DecidableEq, Repr

/-- The `Error()` method: `BadHttpResponseCode.Error` returns `Message`;
an operation-supplied error returns its own text. -/
def GoError.Error : GoError → String
  | .netErr m => m
  | .badHttpResponseCode _ m => m

/-- What one invocation of the caller-supplied `httpCall` returns:
`(resp *http.Response, err error)`, each possibly nil. -/
abbrev HttpCallResult := Option Response × Option GoError

/-- The body of the closure `doHttpCall` in `Retry`
(src/httpbackoff.go lines 83-99), as a function of what `httpCall`
returned. Result `none` means the closure crashes (nil-pointer
dereference of `response.StatusCode` when `httpCall` returned
`(nil, nil)`); `some r` means the closure returns `r` (a Go `error`,
possibly nil) to the backoff loop. -/
def doHttpCall (r : HttpCallResult) : Option (Option GoError) :=
  match r with
  | (_, some e) => some (some e)
  | (some resp, none) =>
      if resp.StatusCode / 100 = 5 then
        some (some (.badHttpResponseCode resp.StatusCode
          ("(Intermittent) HTTP response code " ++ toString resp.StatusCode)))
      else
        some none
  | (none, none) => none

/-- Result of the backoff loop `backoff.RetryNotify(doHttpCall, ...)`:
either the program crashed, or the loop finished having made `attempts`
calls, with the captured `response` variable holding the last call's
response and `err` the loop's returned error (nil on success). -/
inductive LoopResult where
  | crash
  | finished (response : Option Response) (attempts : Nat) (err : Option GoError)
deriving DecidableEq, Repr

/-- The loop of `backoff.RetryNotify` driving `doHttpCall`
(src/httpbackoff.go line 102): invoke the operation; if it returns nil,
stop with nil; otherwise consult the scheduler — if a wait is granted,
sleep and loop, and if it returns Stop, stop with the last error.
`grants` is the number of waits the scheduler still grants before Stop;
`k` is the number of operation invocations made so far (so the invocation
performed in this iteration is invocation `k`, and the `attempts` counter,
incremented once per invocation, reads `k + 1` afterwards).
The two equations differ only in the retryable branch: with no grant left
the scheduler returns Stop and the loop returns the last error. -/
def retryNotify (calls : Nat → HttpCallResult) : Nat → Nat → LoopResult
  | 0, k =>
      match doHttpCall (calls k) with
      | none => .crash
      | some none => .finished (calls k).1 (k + 1) none
      | some (some e) => .finished (calls k).1 (k + 1) (some e)
  | g + 1, k =>
      match doHttpCall (calls k) with
      | none => .crash
      | some none => .finished (calls k).1 (k + 1) none
      | some (some _) => retryNotify calls g (k + 1)

/-- What `Retry` returns: either the program crashed (nil dereference),
or the triple `(*http.Response, int, error)`. -/
inductive RetryResult where
  | crash
  | ok (response : Option Response) (attempts : Nat) (err : Option GoError)
deriving DecidableEq, Repr

/-- `Retry` (src/httpbackoff.go lines 79-118): run the backoff loop; if it
returned an error, return it together with the last response and the attempt
count; otherwise check the final response code is in [200,300) and, if not,
return a `(Permanent)` `BadHttpResponseCode` error. Reading `StatusCode` of
a nil final response crashes. -/
def Retry (calls : Nat → HttpCallResult) (grants : Nat) : RetryResult :=
  match retryNotify calls grants 0 with
  | .crash => .crash
  | .finished r a (some e) => .ok r a (some e)
  | .finished r a none =>
      match r with
      | none => .crash
      | some resp =>
          if resp.StatusCode / 100 ≠ 2 then
            .ok r a (some (.badHttpResponseCode resp.StatusCode
              ("(Permanent) HTTP response code " ++ toString resp.StatusCode)))
          else
            .ok r a none

/-- The loop consults `doHttpCall` once more when a wait is granted. -/
lemma retryNotify_succ (calls : Nat → HttpCallResult) (g k : Nat) (e : GoError)
    (hd : doHttpCall (calls k) = some (some e)) :
    retryNotify calls (g + 1) k = retryNotify calls g (k + 1) := by
  simp [retryNotify, hd]

/-- The loop stops with nil as soon as `doHttpCall` returns nil, whatever
the scheduler would still grant. -/
lemma retryNotify_done (calls : Nat → HttpCallResult) (g k : Nat)
    (hd : doHttpCall (calls k) = some none) :
    retryNotify calls g k = .finished (calls k).1 (k + 1) none := by
  cases g <;> simp [retryNotify, hd]

/-- With no grant left, the loop returns the error of the current call. -/
lemma retryNotify_stop (calls : Nat → HttpCallResult) (k : Nat) (e : GoError)
    (hd : doHttpCall (calls k) = some (some e)) :
    retryNotify calls 0 k = .finished (calls k).1 (k + 1) (some e) := by
  simp [retryNotify, hd]

/-- Characterization of a finished loop: the attempt count exceeds the
number of calls already made, is bounded by the scheduler budget, the
captured response is the last call's response, and the loop's error is
exactly what `doHttpCall` produced on the last call. -/
lemma retryNotify_finished (calls : Nat → HttpCallResult) :
    ∀ grants k r a e, retryNotify calls grants k = .finished r a e →
      k < a ∧ a ≤ k + grants + 1 ∧ r = (calls (a - 1)).1 ∧
        doHttpCall (calls (a - 1)) = some e := by
  intro grants
  induction grants with
  | zero =>
      intro k r a e h
      rcases hd : doHttpCall (calls k) with _ | e₀
      · simp [retryNotify, hd] at h
      · rcases e₀ with _ | e₁
        · simp [retryNotify, hd] at h
          obtain ⟨hr, ha, he⟩ := h
          subst hr; subst ha; subst he
          exact ⟨by omega, by omega, by simp, by simpa using hd⟩
        · simp [retryNotify, hd] at h
          obtain ⟨hr, ha, he⟩ := h
          subst hr; subst ha; subst he
          exact ⟨by omega, by omega, by simp, by simpa using hd⟩
  | succ g ih =>
      intro k r a e h
      rcases hd : doHttpCall (calls k) with _ | e₀
      · simp [retryNotify, hd] at h
      · rcases e₀ with _ | e₁
        · simp [retryNotify, hd] at h
          obtain ⟨hr, ha, he⟩ := h
          subst hr; subst ha; subst he
          exact ⟨by omega, by omega, by simp, by simpa using hd⟩
        · rw [retryNotify_succ calls g k e₁ hd] at h
          obtain ⟨hk, ha, hr, hd'⟩ := ih (k + 1) r a e h
          exact ⟨by omega, by omega, hr, hd'⟩

/-- Locality of the loop: a finished run only reads the calls it actually
made, namely invocations `k, ..., a - 1`; any operation agreeing on those
invocations produces the same run. -/
lemma retryNotify_congr (calls calls' : Nat → HttpCallResult) :
    ∀ grants k r a e, retryNotify calls grants k = .finished r a e →
      (∀ j, k ≤ j → j < a → calls' j = calls j) →
      retryNotify calls' grants k = .finished r a e := by
  intro grants
  induction grants with
  | zero =>
      intro k r a e h hc
      have hk : k < a := (retryNotify_finished calls 0 k r a e h).1
      have hck : calls' k = calls k := hc k le_rfl hk
      rcases hd : doHttpCall (calls k) with _ | e₀
      · simp [retryNotify, hd] at h
      · rcases e₀ with _ | e₁
        · simp [retryNotify, hd] at h
          obtain ⟨hr, ha, he⟩ := h
          subst hr; subst ha; subst he
          rw [retryNotify_done calls' 0 k (by rw [hck]; exact hd), hck]
        · simp [retryNotify, hd] at h
          obtain ⟨hr, ha, he⟩ := h
          subst hr; subst ha; subst he
          rw [retryNotify_stop calls' k e₁ (by rw [hck]; exact hd), hck]
  | succ g ih =>
      intro k r a e h hc
      have hk : k < a := (retryNotify_finished calls (g + 1) k r a e h).1
      have hck : calls' k = calls k := hc k le_rfl hk
      rcases hd : doHttpCall (calls k) with _ | e₀
      · simp [retryNotify, hd] at h
      · rcases e₀ with _ | e₁
        · simp [retryNotify, hd] at h
          obtain ⟨hr, ha, he⟩ := h
          subst hr; subst ha; subst he
          rw [retryNotify_done calls' (g + 1) k (by rw [hck]; exact hd), hck]
        · rw [retryNotify_succ calls g k e₁ hd] at h
          have h' := ih (k + 1) r a e h (fun j hj1 hj2 => hc j (by omega) hj2)
          rw [retryNotify_succ calls' g k e₁ (by rw [hck]; exact hd)]
          exact h'

/-- A finished loop run lifts to `Retry`: helper inversion. If `Retry`
returned `.ok r a e`, the loop finished with the same response and attempt
count, and with an error that determines `e`. -/
lemma Retry_ok_inv (calls : Nat → HttpCallResult) (grants : Nat)
    (r : Option Response) (a : Nat) (e : Option GoError)
    (h : Retry calls grants = .ok r a e) :
    ∃ e₀, retryNotify calls grants 0 = .finished r a e₀ ∧
      ((∃ e₁, e₀ = some e₁ ∧ e = some e₁) ∨
       (e₀ = none ∧ ∃ resp, r = some resp ∧
         ((resp.StatusCode / 100 ≠ 2 ∧
           e = some (.badHttpResponseCode resp.StatusCode
             ("(Permanent) HTTP response code " ++ toString resp.StatusCode))) ∨
          (resp.StatusCode / 100 = 2 ∧ e = none)))) := by
  unfold Retry at h
  rcases hrn : retryNotify calls grants 0 with _ | ⟨r', a', e'⟩ <;> rw [hrn] at h
  · simp at h
  · rcases e' with _ | e₁
    · rcases r' with _ | resp
      · simp at h
      · by_cases h2 : resp.StatusCode / 100 = 2
        · simp [h2] at h
          obtain ⟨hr, ha, he⟩ := h
          subst hr; subst ha; subst he
          exact ⟨none, rfl, Or.inr ⟨rfl, resp, rfl, Or.inr ⟨h2, rfl⟩⟩⟩
        · simp [h2] at h
          obtain ⟨hr, ha, he⟩ := h
          subst hr; subst ha; subst he
          exact ⟨none, rfl, Or.inr ⟨rfl, resp, rfl, Or.inl ⟨h2, rfl⟩⟩⟩
    · simp at h
      obtain ⟨hr, ha, he⟩ := h
      subst hr; subst ha; subst he
      exact ⟨some e₁, rfl, Or.inl ⟨e₁, rfl, rfl⟩⟩

/-- An all-5xx prefix of calls drives the loop to exhaust its budget and
return the last intermittent error. `c j` is the status code of call `j`. -/
lemma retryNotify_all5xx (calls : Nat → HttpCallResult) (c : Nat → Nat) :
    ∀ grants k,
      (∀ j, k ≤ j → j ≤ k + grants → calls j = (some ⟨c j⟩, none) ∧ c j / 100 = 5) →
      retryNotify calls grants k = .finished (some ⟨c (k + grants)⟩) (k + grants + 1)
        (some (.badHttpResponseCode (c (k + grants))
          ("(Intermittent) HTTP response code " ++ toString (c (k + grants))))) := by
  intro grants
  induction grants with
  | zero =>
      intro k h
      obtain ⟨hc, h5⟩ := h k le_rfl (by omega)
      have hd : doHttpCall (calls k) = some (some (.badHttpResponseCode (c k)
          ("(Intermittent) HTTP response code " ++ toString (c k)))) := by
        rw [hc]; simp [doHttpCall, h5]
      rw [retryNotify_stop calls k _ hd, hc]
      simp
  | succ g ih =>
      intro k h
      obtain ⟨hc, h5⟩ := h k le_rfl (by omega)
      have hd : doHttpCall (calls k) = some (some (.badHttpResponseCode (c k)
          ("(Intermittent) HTTP response code " ++ toString (c k)))) := by
        rw [hc]; simp [doHttpCall, h5]
      rw [retryNotify_succ calls g k _ hd]
      have := ih (k + 1) (fun j hj1 hj2 => h j (by omega) (by omega))
      rw [show k + 1 + g = k + (g + 1) by omega] at this
      exact this

/-- C2: an operation whose first four invocations return responses with
status codes 500, 501, 502 and 200 (no network errors), run against a
scheduler that grants at least three waits before stopping, makes `Retry`
return the 200 response with attempt count 4 and nil error. -/
theorem retry_5xx_sequence_then_200 (calls : Nat → HttpCallResult) (g : Nat)
    (h0 : calls 0 = (some ⟨500⟩, none)) (h1 : calls 1 = (some ⟨501⟩, none))
    (h2 : calls 2 = (some ⟨502⟩, none)) (h3 : calls 3 = (some ⟨200⟩, none)) :
    Retry calls (g + 3) = .ok (some ⟨200⟩) 4 none := by
  have d0 : doHttpCall (calls 0) = some (some (.badHttpResponseCode 500
      "(Intermittent) HTTP response code 500")) := by rw [h0]; decide
  have d1 : doHttpCall (calls 1) = some (some (.badHttpResponseCode 501
      "(Intermittent) HTTP response code 501")) := by rw [h1]; decide
  have d2 : doHttpCall (calls 2) = some (some (.badHttpResponseCode 502
      "(Intermittent) HTTP response code 502")) := by rw [h2]; decide
  have d3 : doHttpCall (calls 3) = some none := by rw [h3]; decide
  have hloop : retryNotify calls (g + 3) 0 = .finished (some ⟨200⟩) 4 none := by
    rw [show g + 3 = (g + 2) + 1 by omega, retryNotify_succ calls (g + 2) 0 _ d0,
      show g + 2 = (g + 1) + 1 by omega, retryNotify_succ calls (g + 1) 1 _ d1,
      retryNotify_succ calls g 2 _ d2, retryNotify_done calls g 3 d3, h3]
  unfold Retry
  rw [hloop]
  decide

/-- Witness for C2: the concrete response queue [500, 501, 502, 200] with a
scheduler granting exactly three waits. -/
theorem retry_5xx_sequence_then_200_witness :
    Retry (fun k => if k = 0 then (some ⟨500⟩, none) else if k = 1 then (some ⟨501⟩, none)
      else if k = 2 then (some ⟨502⟩, none) else (some ⟨200⟩, none)) 3 =
      .ok (some ⟨200⟩) 4 none :=
  retry_5xx_sequence_then_200 _ 0 (by decide) (by decide) (by decide) (by decide)

/-- C3: a first response with a 4xx status code other than 429 is permanent:
`Retry` makes no further attempt and returns that response, attempt count 1,
and the structured error `BadHttpResponseCode` carrying the status code and
the message "(Permanent) HTTP response code {s}". (In the code under
src/httpbackoff.go every 4xx status, 429 included, takes this path, so the
restriction s ≠ 429 only narrows the quantifier.) -/
theorem retry_4xx_permanent (calls : Nat → HttpCallResult) (grants s : Nat)
    (hlo : 400 ≤ s) (hhi : s < 500) (_h429 : s ≠ 429)
    (h0 : calls 0 = (some ⟨s⟩, none)) :
    Retry calls grants = .ok (some ⟨s⟩) 1
      (some (.badHttpResponseCode s ("(Permanent) HTTP response code " ++ toString s))) := by
  have h4 : s / 100 = 4 := by omega
  have hd : doHttpCall (calls 0) = some none := by
    rw [h0]; simp [doHttpCall, h4]
  unfold Retry
  rw [retryNotify_done calls grants 0 hd, h0]
  simp [h4]

/-- Witness for C3: a single 404 response with a generous scheduler. -/
theorem retry_4xx_permanent_witness :
    Retry (fun _ => (some ⟨404⟩, none)) 5 = .ok (some ⟨404⟩) 1
      (some (.badHttpResponseCode 404 "(Permanent) HTTP response code 404")) :=
  retry_4xx_permanent _ 5 404 (by decide) (by decide) (by decide) (by decide)

/-- C4 counterexample: a run in which every attempt returns a 500 response
and the scheduler eventually returns STOP — here on its very first
consultation, as happens when the first attempt alone exceeds
`maxElapsedTime` — yields the last intermittent error verbatim and the last
500 response, but an attempt count of exactly 1, refuting the claimed
"attempt count greater than 1". -/
theorem retry_exhausted_attempt_count_one :
    Retry (fun _ => (some ⟨500⟩, none)) 0 = .ok (some ⟨500⟩) 1
      (some (.badHttpResponseCode 500 "(Intermittent) HTTP response code 500")) ∧
    ¬ (1 : Nat) > 1 := by
  constructor
  · decide
  · decide

/-- C4 (amended): in every run in which all attempts return 5xx responses
(status `c j` on attempt `j`) and the scheduler returns STOP after granting
`grants` waits, `Retry` returns the error produced by the last attempt
verbatim — the structured `BadHttpResponseCode` carrying the last 5xx status
with message "(Intermittent) HTTP response code {code}", not a synthetic
timeout error — together with the last 5xx response; the attempt count is
`grants + 1`, hence at least 1, and greater than 1 exactly when the
scheduler granted at least one wait before stopping. -/
theorem retry_exhausted_returns_last_error (calls : Nat → HttpCallResult)
    (grants : Nat) (c : Nat → Nat)
    (h : ∀ j, j ≤ grants → calls j = (some ⟨c j⟩, none) ∧ c j / 100 = 5) :
    Retry calls grants = .ok (some ⟨c grants⟩) (grants + 1)
      (some (.badHttpResponseCode (c grants)
        ("(Intermittent) HTTP response code " ++ toString (c grants)))) ∧
    1 ≤ grants + 1 ∧ (1 ≤ grants → 1 < grants + 1) := by
  refine ⟨?_, by omega, by omega⟩
  have hloop := retryNotify_all5xx calls c grants 0 (fun j hj1 hj2 => h j (by omega))
  simp only [Nat.zero_add] at hloop
  unfold Retry
  rw [hloop]

/-- Witness for C4's amended theorem: two consecutive 500 responses with one
granted wait give attempt count 2. -/
theorem retry_exhausted_returns_last_error_witness :
    Retry (fun _ => (some ⟨500⟩, none)) 1 = .ok (some ⟨500⟩) 2
      (some (.badHttpResponseCode 500 "(Intermittent) HTTP response code 500")) ∧
    1 ≤ 1 + 1 ∧ (1 ≤ 1 → 1 < 1 + 1) :=
  retry_exhausted_returns_last_error (fun _ => (some ⟨500⟩, none)) 1 (fun _ => 500)
    (fun j hj => ⟨rfl, by norm_num⟩)

/-- C5: in every run of `Retry` that returns (does not crash), the returned
error is nil if and only if the final attempt returned a response with no
network error and a status code in [200,300). -/
theorem retry_err_nil_iff_success (calls : Nat → HttpCallResult) (grants : Nat)
    (r : Option Response) (a : Nat) (e : Option GoError)
    (h : Retry calls grants = .ok r a e) :
    e = none ↔ ∃ resp, calls (a - 1) = (some resp, none) ∧
      200 ≤ resp.StatusCode ∧ resp.StatusCode < 300 := by
  obtain ⟨e₀, hloop, hcase⟩ := Retry_ok_inv calls grants r a e h
  obtain ⟨hk, ha, hr, hd⟩ := retryNotify_finished calls grants 0 r a e₀ hloop
  rcases hcase with ⟨e₁, he₀, he⟩ | ⟨he₀, resp, hresp, hcase⟩
  · -- the loop itself returned an error: the result error is non-nil, and the
    -- last call either carried an operation error or a 5xx response
    subst he₀; subst he
    simp only [reduceCtorEq, false_iff, not_exists, not_and]
    intro resp hcall h200 h300
    rw [hcall] at hd
    have h2 : resp.StatusCode / 100 = 2 := by omega
    simp [doHttpCall, show resp.StatusCode / 100 ≠ 5 by omega] at hd
  · -- the loop returned nil: the last call returned a non-5xx response, and
    -- the final [200,300) check decides the error
    subst he₀
    rcases hd' : calls (a - 1) with ⟨resp?, err?⟩
    rw [hd'] at hd hr
    rcases err? with _ | e₂
    · rcases resp? with _ | resp₂
      · simp [doHttpCall] at hd
      · simp at hr
        have hresp₂ : resp₂ = resp := by
          rw [hr] at hresp; injection hresp
        subst hresp₂
        rcases hcase with ⟨hne2, he⟩ | ⟨h2, he⟩
        · subst he
          simp only [reduceCtorEq, false_iff, not_exists, not_and]
          intro resp' hcall h200 h300
          have : resp₂ = resp' := by injection hcall with h1 h2; injection h1
          subst this
          omega
        · subst he
          simp only [true_iff]
          exact ⟨resp₂, rfl, by omega, by omega⟩
    · simp [doHttpCall] at hd

/-- Witness for C5: a run ending in a 204 response with nil error. -/
theorem retry_err_nil_iff_success_witness :
    (none : Option GoError) = none ↔ ∃ resp,
      (fun (_ : Nat) => ((some ⟨204⟩ : Option Response), (none : Option GoError))) (1 - 1) =
        (some resp, none) ∧ 200 ≤ resp.StatusCode ∧ resp.StatusCode < 300 :=
  retry_err_nil_iff_success (fun _ => (some ⟨204⟩, none)) 0 (some ⟨204⟩) 1 none (by decide)

/-- C6: in every run of `Retry` that returns `.ok r a e`, the attempt count
`a` is at least 1, and equals the number of invocations of the operation:
the run reads exactly the results of invocations `0, ..., a - 1`, so any
operation agreeing with `calls` on those invocations yields the very same
result, attempt count included. -/
theorem retry_attempt_count_eq_invocations (calls : Nat → HttpCallResult)
    (grants : Nat) (r : Option Response) (a : Nat) (e : Option GoError)
    (h : Retry calls grants = .ok r a e) :
    1 ≤ a ∧ ∀ calls' : Nat → HttpCallResult,
      (∀ j, j < a → calls' j = calls j) → Retry calls' grants = .ok r a e := by
  obtain ⟨e₀, hloop, hcase⟩ := Retry_ok_inv calls grants r a e h
  obtain ⟨hk, ha, hr, hd⟩ := retryNotify_finished calls grants 0 r a e₀ hloop
  refine ⟨by omega, fun calls' hc => ?_⟩
  have hloop' : retryNotify calls' grants 0 = .finished r a e₀ :=
    retryNotify_congr calls calls' grants 0 r a e₀ hloop
      (fun j hj1 hj2 => hc j hj2)
  have hlast : calls' (a - 1) = calls (a - 1) := hc (a - 1) (by omega)
  unfold Retry at h ⊢
  rw [hloop] at h
  rw [hloop']
  exact h

/-- Witness for C6: a single 200 response is one attempt; the result is
stable under any operation agreeing on invocation 0. -/
theorem retry_attempt_count_eq_invocations_witness :
    1 ≤ 1 ∧ ∀ calls' : Nat → HttpCallResult,
      (∀ j, j < 1 → calls' j = (fun (_ : Nat) =>
        ((some ⟨200⟩ : Option Response), (none : Option GoError))) j) →
      Retry calls' 0 = .ok (some ⟨200⟩) 1 none :=
  retry_attempt_count_eq_invocations (fun _ => (some ⟨200⟩, none)) 0
    (some ⟨200⟩) 1 none (by decide)

/-- C7: in every run of `Retry` that returns a non-nil error, either the
last invocation of the operation itself returned an error and that error is
returned unchanged (in particular a network failure, which carries no status
code), or the last invocation returned a response (no operation error) with
a non-2xx status and the returned error is the structured
`BadHttpResponseCode` whose `HttpResponseCode` field equals that response's
status code and whose message is "(Intermittent) HTTP response code {s}"
for 5xx statuses and "(Permanent) HTTP response code {s}" for the other
non-2xx statuses, so the two kinds are programmatically distinguishable. -/
theorem retry_error_taxonomy (calls : Nat → HttpCallResult) (grants : Nat)
    (r : Option Response) (a : Nat) (e : GoError)
    (h : Retry calls grants = .ok r a (some e)) :
    (r = (calls (a - 1)).1 ∧ (calls (a - 1)).2 = some e) ∨
    (∃ resp, r = some resp ∧ calls (a - 1) = (some resp, none) ∧
      ((resp.StatusCode / 100 = 5 ∧
        e = .badHttpResponseCode resp.StatusCode
          ("(Intermittent) HTTP response code " ++ toString resp.StatusCode)) ∨
       (resp.StatusCode / 100 ≠ 5 ∧ resp.StatusCode / 100 ≠ 2 ∧
        e = .badHttpResponseCode resp.StatusCode
          ("(Permanent) HTTP response code " ++ toString resp.StatusCode)))) := by
  obtain ⟨e₀, hloop, hcase⟩ := Retry_ok_inv calls grants r a (some e) h
  obtain ⟨hk, ha, hr, hd⟩ := retryNotify_finished calls grants 0 r a e₀ hloop
  rcases hd' : calls (a - 1) with ⟨resp?, err?⟩
  rw [hd'] at hd hr
  rcases hcase with ⟨e₁, he₀, he⟩ | ⟨he₀, resp, hresp, hcase⟩
  · -- loop error: it came from doHttpCall on the last call
    subst he₀
    have he₁ : e = e₁ := by injection he
    subst he₁
    rcases err? with _ | e₂
    · rcases resp? with _ | resp₂
      · simp [doHttpCall] at hd
      · -- a response with no operation error: the loop error is the 5xx error
        by_cases h5 : resp₂.StatusCode / 100 = 5
        · simp [doHttpCall, h5] at hd
          refine Or.inr ⟨resp₂, by simpa using hr, rfl, Or.inl ⟨h5, hd.symm⟩⟩
        · simp [doHttpCall, h5] at hd
    · -- the operation itself returned an error: returned unchanged
      simp [doHttpCall] at hd
      exact Or.inl ⟨hr, by rw [hd]⟩
  · -- loop returned nil: the error is the final permanent check's
    subst he₀
    rcases hcase with ⟨hne2, he⟩ | ⟨h2, he⟩
    · have he' : e = .badHttpResponseCode resp.StatusCode
          ("(Permanent) HTTP response code " ++ toString resp.StatusCode) := by
        injection he
      rcases err? with _ | e₂
      · rcases resp? with _ | resp₂
        · simp [doHttpCall] at hd
        · have hresp₂ : resp₂ = resp := by
            rw [hresp] at hr; simpa using hr.symm
          subst hresp₂
          by_cases h5 : resp₂.StatusCode / 100 = 5
          · simp [doHttpCall, h5] at hd
          · exact Or.inr ⟨resp₂, hresp, rfl, Or.inr ⟨h5, hne2, he'⟩⟩
      · simp [doHttpCall] at hd
    · exact absurd he (by simp)

/-- Witness for C7: a single 404 response produces the permanent structured
error carrying code 404. -/
theorem retry_error_taxonomy_witness :
    ((some ⟨404⟩ : Option Response) =
        ((fun (_ : Nat) => ((some ⟨404⟩ : Option Response), (none : Option GoError))) (1 - 1)).1 ∧
      ((fun (_ : Nat) => ((some ⟨404⟩ : Option Response), (none : Option GoError))) (1 - 1)).2 =
        some (.badHttpResponseCode 404 "(Permanent) HTTP response code 404")) ∨
    (∃ resp, (some ⟨404⟩ : Option Response) = some resp ∧
      (fun (_ : Nat) => ((some ⟨404⟩ : Option Response), (none : Option GoError))) (1 - 1) =
        (some resp, none) ∧
      ((resp.StatusCode / 100 = 5 ∧
        GoError.badHttpResponseCode 404 "(Permanent) HTTP response code 404" =
          .badHttpResponseCode resp.StatusCode
            ("(Intermittent) HTTP response code " ++ toString resp.StatusCode)) ∨
       (resp.StatusCode / 100 ≠ 5 ∧ resp.StatusCode / 100 ≠ 2 ∧
        GoError.badHttpResponseCode 404 "(Permanent) HTTP response code 404" =
          .badHttpResponseCode resp.StatusCode
            ("(Permanent) HTTP response code " ++ toString resp.StatusCode)))) :=
  retry_error_taxonomy (fun _ => (some ⟨404⟩, none)) 0 (some ⟨404⟩) 1
    (.badHttpResponseCode 404 "(Permanent) HTTP response code 404") (by decide)

/-- C9: `Retry` is only safe under the precondition — stated nowhere in the
spec — that the operation never returns (nil, nil): on an operation whose
invocation returns a nil response together with a nil error, `Retry`
dereferences the nil response's `StatusCode` and crashes instead of
returning an error, whatever the scheduler would grant. -/
theorem retry_nil_nil_crashes :
    ∀ grants : Nat, Retry (fun _ => (none, none)) grants = .crash := by
  intro grants
  cases grants <;> simp [Retry, retryNotify, doHttpCall]

/-- Modelled from the spec: the outcome classification of the Client-based
retry engine (spec §4.2 step 3), whose source file — the `Client` type with
its `Retry` method exercised by retry_test.go and test_setup_test.go — is
not present under src/. A raw operation error is a retryable network
failure; a response with status in [500,600) or equal to 429 is retryable
with message "(Intermittent) HTTP response code {code}"; a status in
[200,300) is terminal success; any other status is a permanent failure with
message "(Permanent) HTTP response code {code}". A result with neither a
response nor an error is left unspecified by the spec (`none`). -/
inductive Classified where
  | success (resp : Response)
  | permanentFail (resp : Response) (e : GoError)
  | retryable (resp : Option Response) (e : GoError)
deriving DecidableEq, Repr

/-- Modelled from the spec: see `Classified`. -/
def classify (r : HttpCallResult) : Option Classified :=
  match r with
  | (resp, some e) => some (.retryable resp e)
  | (some resp, none) =>
      if resp.StatusCode / 100 = 5 ∨ resp.StatusCode = 429 then
        some (.retryable (some resp) (.badHttpResponseCode resp.StatusCode
          ("(Intermittent) HTTP response code " ++ toString resp.StatusCode)))
      else if resp.StatusCode / 100 = 2 then
        some (.success resp)
      else
        some (.permanentFail resp (.badHttpResponseCode resp.StatusCode
          ("(Permanent) HTTP response code " ++ toString resp.StatusCode)))
  | (none, none) => none

/-- Modelled from the spec: the retry loop of the Client-based engine
(spec §4.2 steps 1-5 and the §4.2 state machine): classify each attempt;
terminal outcomes (success, permanent failure) return immediately with
the attempt count and, for permanent failures, the structured error;
retryable outcomes consult the scheduler — a granted wait loops, STOP
returns the last retryable outcome as the final error. As for `retryNotify`,
`grants` is the number of waits the scheduler grants before STOP and `k`
the number of attempts already made. -/
def clientRetryLoop (calls : Nat → HttpCallResult) : Nat → Nat → RetryResult
  | 0, k =>
      match classify (calls k) with
      | none => .crash
      | some (.success resp) => .ok (some resp) (k + 1) none
      | some (.permanentFail resp e) => .ok (some resp) (k + 1) (some e)
      | some (.retryable resp e) => .ok resp (k + 1) (some e)
  | g + 1, k =>
      match classify (calls k) with
      | none => .crash
      | some (.success resp) => .ok (some resp) (k + 1) none
      | some (.permanentFail resp e) => .ok (some resp) (k + 1) (some e)
      | some (.retryable _ _) => clientRetryLoop calls g (k + 1)

/-- Modelled from the spec: the Client-based `Retry` (spec §4.2 contract),
the engine that treats 429 as retryable. -/
def ClientRetry (calls : Nat → HttpCallResult) (grants : Nat) : RetryResult :=
  clientRetryLoop calls grants 0

/-- C1: an operation whose first attempt returns a 429 response and whose
second attempt returns a 200 response is retried — the 429 is treated as
retryable, not permanent — and, when the scheduler grants at least one
wait, the Client-based `Retry` returns Success: the 200 response, attempt
count 2, and nil error. -/
theorem client_retry_429_retried (calls : Nat → HttpCallResult) (g : Nat)
    (h0 : calls 0 = (some ⟨429⟩, none)) (h1 : calls 1 = (some ⟨200⟩, none)) :
    ClientRetry calls (g + 1) = .ok (some ⟨200⟩) 2 none := by
  have hc0 : classify (calls 0) = some (.retryable (some ⟨429⟩)
      (.badHttpResponseCode 429 "(Intermittent) HTTP response code 429")) := by
    rw [h0]; decide
  have hc1 : classify (calls 1) = some (.success ⟨200⟩) := by
    rw [h1]; decide
  unfold ClientRetry
  cases g <;> simp [clientRetryLoop, hc0, hc1]

/-- Witness for C1: the test queue [429, 200] with one granted wait. -/
theorem client_retry_429_retried_witness :
    ClientRetry (fun k => if k = 0 then (some ⟨429⟩, none) else (some ⟨200⟩, none)) 1 =
      .ok (some ⟨200⟩) 2 none :=
  client_retry_429_retried _ 0 (by decide) (by decide)

/-- Modelled from the spec: the configuration of the Backoff Scheduler
(spec §3 `BackoffConfig`), whose implementation (the external
cenkalti/backoff `ExponentialBackOff`) is not under src/. Durations and
the float multiplier and randomization factor are modelled as rationals. -/
structure BackoffConfig where
  initialInterval : ℚ
  multiplier : ℚ
  randomizationFactor : ℚ
  maxInterval : ℚ
  maxElapsedTime : ℚ
deriving DecidableEq, Repr

/-- Modelled from the spec: the scheduler's internal running state
(spec §3): `currentInterval`, and `startTime` set lazily on first use. -/
structure SchedState where
  currentInterval : ℚ
  startTime : Option ℚ
deriving DecidableEq, Repr

/-- Modelled from the spec: `NextBackOff` (spec §4.1). `now` is the clock
reading at this call and `u ∈ [-1, 1]` the uniform draw for the jitter. If
`startTime` is unset it is set to `now`; if `maxElapsedTime` is non-zero
and `now - startTime > maxElapsedTime` the call returns STOP (`none`);
otherwise `currentInterval` is clamped to `maxInterval` before randomizing,
the randomized interval `c ± c * randomizationFactor` is returned, and
`currentInterval` is updated to `min (currentInterval * multiplier)
maxInterval` for the next call. -/
def nextBackOff (cfg : BackoffConfig) (now u : ℚ) (s : SchedState) :
    Option ℚ × SchedState :=
  let st := s.startTime.getD now
  if cfg.maxElapsedTime ≠ 0 ∧ cfg.maxElapsedTime < now - st then
    (none, { s with startTime := some st })
  else
    let c := min s.currentInterval cfg.maxInterval
    (some (c + c * cfg.randomizationFactor * u),
     { currentInterval := min (s.currentInterval * cfg.multiplier) cfg.maxInterval,
       startTime := some st })

/-- Modelled from the spec: `Reset()` (spec §4.1) clears `startTime` and
restores `currentInterval` to `initialInterval`. -/
def schedReset (cfg : BackoffConfig) : SchedState :=
  { currentInterval := cfg.initialInterval, startTime := none }

/-- The wait durations returned by successive `NextBackOff` calls within
one retry sequence: each element of `inputs` is the `(now, u)` pair of one
call; the sequence ends at the first STOP. -/
def schedWaits (cfg : BackoffConfig) : List (ℚ × ℚ) → SchedState → List ℚ
  | [], _ => []
  | (now, u) :: rest, s =>
      match nextBackOff cfg now u s with
      | (none, _) => []
      | (some w, s') => w :: schedWaits cfg rest s'

/-- With zero randomization factor, every wait produced from a state with a
non-negative `currentInterval` is bounded below by the clamped current
interval — the key invariant behind monotonicity. -/
lemma schedWaits_lower_bound (cfg : BackoffConfig)
    (hrf : cfg.randomizationFactor = 0) (hm : 1 ≤ cfg.multiplier)
    (hmax : 0 ≤ cfg.maxInterval) :
    ∀ (inputs : List (ℚ × ℚ)) (s : SchedState), 0 ≤ s.currentInterval →
      ∀ w ∈ schedWaits cfg inputs s, min s.currentInterval cfg.maxInterval ≤ w := by
  intro inputs
  induction inputs with
  | nil => intro s hs w hw; simp [schedWaits] at hw
  | cons p rest ih =>
      intro s hs w hw
      obtain ⟨now, u⟩ := p
      by_cases hstop : cfg.maxElapsedTime ≠ 0 ∧
          cfg.maxElapsedTime < now - s.startTime.getD now
      · simp [schedWaits, nextBackOff, hstop] at hw
      · simp only [schedWaits, nextBackOff, if_neg hstop, List.mem_cons] at hw
        have hmul : s.currentInterval ≤ s.currentInterval * cfg.multiplier :=
          le_mul_of_one_le_right hs hm
        rcases hw with hw | hw
        · rw [hw, hrf]
          ring_nf
          exact le_refl _
        · have h0 : (0:ℚ) ≤ min (s.currentInterval * cfg.multiplier) cfg.maxInterval :=
            le_min (le_trans hs hmul) hmax
          have hle := ih ⟨min (s.currentInterval * cfg.multiplier) cfg.maxInterval,
            some (s.startTime.getD now)⟩ h0 w hw
          refine le_trans ?_ hle
          simp only
          rw [min_eq_left (min_le_right (s.currentInterval * cfg.multiplier) cfg.maxInterval)]
          exact min_le_min hmul le_rfl

/-- With zero randomization factor, every returned wait is the clamped
current interval, hence at most `maxInterval`. -/
lemma schedWaits_le_max (cfg : BackoffConfig)
    (hrf : cfg.randomizationFactor = 0) :
    ∀ (inputs : List (ℚ × ℚ)) (s : SchedState),
      ∀ w ∈ schedWaits cfg inputs s, w ≤ cfg.maxInterval := by
  intro inputs
  induction inputs with
  | nil => intro s w hw; simp [schedWaits] at hw
  | cons p rest ih =>
      intro s w hw
      obtain ⟨now, u⟩ := p
      by_cases hstop : cfg.maxElapsedTime ≠ 0 ∧
          cfg.maxElapsedTime < now - s.startTime.getD now
      · simp [schedWaits, nextBackOff, hstop] at hw
      · simp only [schedWaits, nextBackOff, if_neg hstop, List.mem_cons] at hw
        rcases hw with hw | hw
        · rw [hw, hrf]
          ring_nf
          exact min_le_right _ _
        · exact ih _ w hw

/-- With zero randomization factor, the successive waits of one retry
sequence form a non-decreasing list. -/
lemma schedWaits_sorted (cfg : BackoffConfig)
    (hrf : cfg.randomizationFactor = 0) (hm : 1 ≤ cfg.multiplier)
    (hmax : 0 ≤ cfg.maxInterval) :
    ∀ (inputs : List (ℚ × ℚ)) (s : SchedState), 0 ≤ s.currentInterval →
      List.Sorted (· ≤ ·) (schedWaits cfg inputs s) := by
  intro inputs
  induction inputs with
  | nil => intro s hs; simp [schedWaits]
  | cons p rest ih =>
      intro s hs
      obtain ⟨now, u⟩ := p
      by_cases hstop : cfg.maxElapsedTime ≠ 0 ∧
          cfg.maxElapsedTime < now - s.startTime.getD now
      · simp [schedWaits, nextBackOff, hstop]
      · simp only [schedWaits, nextBackOff, if_neg hstop]
        have hmul : s.currentInterval ≤ s.currentInterval * cfg.multiplier :=
          le_mul_of_one_le_right hs hm
        have h0 : (0:ℚ) ≤ min (s.currentInterval * cfg.multiplier) cfg.maxInterval :=
          le_min (le_trans hs hmul) hmax
        rw [List.sorted_cons]
        constructor
        · intro b hb
          have hlb := schedWaits_lower_bound cfg hrf hm hmax rest
            ⟨min (s.currentInterval * cfg.multiplier) cfg.maxInterval,
              some (s.startTime.getD now)⟩ h0 b hb
          rw [hrf]
          ring_nf
          refine le_trans ?_ hlb
          simp only
          rw [min_eq_left (min_le_right (s.currentInterval * cfg.multiplier) cfg.maxInterval)]
          exact min_le_min hmul le_rfl
        · exact ih _ h0

/-- C8: for every backoff configuration with `randomizationFactor = 0`
(and, as the spec requires of any configuration, multiplier at least 1 and
non-negative initial and maximum intervals), the sequence of wait durations
returned by successive `NextBackOff` calls within one retry sequence —
started from a freshly reset scheduler, whatever the clock readings — is
non-decreasing, and every returned duration is at most `maxInterval`. -/
theorem backoff_waits_monotone_and_clamped (cfg : BackoffConfig)
    (inputs : List (ℚ × ℚ))
    (hrf : cfg.randomizationFactor = 0) (hm : 1 ≤ cfg.multiplier)
    (hinit : 0 ≤ cfg.initialInterval) (hmax : 0 ≤ cfg.maxInterval) :
    List.Sorted (· ≤ ·) (schedWaits cfg inputs (schedReset cfg)) ∧
    ∀ w ∈ schedWaits cfg inputs (schedReset cfg), w ≤ cfg.maxInterval :=
  ⟨schedWaits_sorted cfg hrf hm hmax inputs (schedReset cfg) hinit,
   schedWaits_le_max cfg hrf inputs (schedReset cfg)⟩

/-- Witness for C8: initial interval 1, multiplier 2, maximum interval 10,
no elapsed-time cutoff, three scheduler consultations (waits 1, 2, 4). -/
theorem backoff_waits_monotone_and_clamped_witness :
    List.Sorted (· ≤ ·) (schedWaits ⟨1, 2, 0, 10, 0⟩ [(0, 0), (0, 0), (0, 0)]
      (schedReset ⟨1, 2, 0, 10, 0⟩)) ∧
    ∀ w ∈ schedWaits ⟨1, 2, 0, 10, 0⟩ [(0, 0), (0, 0), (0, 0)]
      (schedReset ⟨1, 2, 0, 10, 0⟩), w ≤ (⟨1, 2, 0, 10, 0⟩ : BackoffConfig).maxInterval :=
  backoff_waits_monotone_and_clamped ⟨1, 2, 0, 10, 0⟩ [(0, 0), (0, 0), (0, 0)]
    rfl (by norm_num) (by norm_num) (by norm_num)

/-- The scheduler value of the method-based variant
(src/unnamed/part_000): `type ExponentialBackOff backoff.ExponentialBackOff`,
a plain struct copied by value, holding the configuration fields and the
internal running state (`currentInterval`, `startTime`) of the external
cenkalti/backoff scheduler. Durations are modelled as rationals. -/
structure ExponentialBackOff where
  InitialInterval : ℚ
  RandomizationFactor : ℚ
  Multiplier : ℚ
  MaxInterval : ℚ
  MaxElapsedTime : ℚ
  currentInterval : ℚ
  startTime : ℚ
deriving DecidableEq, Repr

/-- Modelled from the spec: `Reset()` (spec §4.1) on the scheduler value
used by the method-based variant — restores `currentInterval` to
`InitialInterval` and stamps `startTime` with the current clock reading. -/
def ebReset (b : ExponentialBackOff) (now : ℚ) : ExponentialBackOff :=
  { b with currentInterval := b.InitialInterval, startTime := now }

/-- Modelled from the spec: `NextBackOff` (spec §4.1) on the scheduler
value used by the method-based variant; `none` is STOP. It mutates only
the value it is called on. -/
def ebNextBackOff (b : ExponentialBackOff) (now u : ℚ) :
    Option ℚ × ExponentialBackOff :=
  if b.MaxElapsedTime ≠ 0 ∧ b.MaxElapsedTime < now - b.startTime then
    (none, b)
  else
    let c := min b.currentInterval b.MaxInterval
    (some (c + c * b.RandomizationFactor * u),
     { b with currentInterval := min (b.currentInterval * b.Multiplier) b.MaxInterval })

/-- What one invocation of the method-based variant's `httpCall` returns:
`(resp *http.Response, tempError error, permError error)`
(src/unnamed/part_000 lines 69-80). -/
abbrev TriCallResult := Option Response × Option GoError × Option GoError

/-- The captured mutable variables of the method-based `Retry`'s closure:
`response`, `tempError`, `permError` (src/unnamed/part_000 lines 82-83). -/
abbrev Captured := Option Response × Option GoError × Option GoError

/-- The closure `doHttpCall` of the method-based `Retry`
(src/unnamed/part_000 lines 85-113), as a function of what `httpCall`
returned and of the response dump `dump` (the string
`httputil.DumpResponse` produces for a response). `none` models the crash
when `DumpResponse` dereferences a nil response; otherwise the result is
the error the closure returns to the backoff loop, paired with the values
of the captured variables afterwards. -/
def methodDoHttpCall (dump : Response → String) (r : TriCallResult) :
    Option (Option GoError × Captured) :=
  match r with
  | (resp, some tE, pE) => some (some tE, (resp, some tE, pE))
  | (resp, none, some pE) => some (none, (resp, none, some pE))
  | (none, none, none) => none
  | (some resp, none, none) =>
      let out := dump resp
      if resp.StatusCode / 100 = 5 then
        some (some (.badHttpResponseCode resp.StatusCode
          ("(Intermittent) HTTP response code " ++ toString resp.StatusCode ++ "\n" ++ out)),
          (some resp, none, none))
      else if resp.StatusCode / 100 ≠ 2 then
        some (none, (some resp, none,
          some (.badHttpResponseCode resp.StatusCode
            ("(Permanent) HTTP response code " ++ toString resp.StatusCode ++ "\n" ++ out))))
      else
        some (none, (some resp, none, none))

/-- The loop of `backoff.RetryNotify` as driven by the method-based
`Retry` (src/unnamed/part_000 lines 116-120): each iteration invokes the
closure; a nil closure result ends the loop; otherwise the scheduler value
`b` is consulted — STOP ends the loop, a granted wait (after the notify
callback and the sleep) loops. `nows` and `us` are the clock readings and
jitter draws of successive `NextBackOff` calls, `fuel` bounds the number of
iterations modelled (`none` in the first component covers both a crash and
a run longer than `fuel`), `k` counts invocations made so far. The loop
returns the final captured variables with the attempt count, together with
the final state of `b` — the only scheduler value it ever writes. -/
def methodRetryNotify (dump : Response → String) (calls : Nat → TriCallResult)
    (nows us : Nat → ℚ) : Nat → Nat → ExponentialBackOff → Captured →
    Option (Nat × Captured) × ExponentialBackOff
  | 0, _, b, _ => (none, b)
  | fuel + 1, k, b, _cap =>
      match methodDoHttpCall dump (calls k) with
      | none => (none, b)
      | some (none, cap') => (some (k + 1, cap'), b)
      | some (some _, cap') =>
          match ebNextBackOff b (nows k) (us k) with
          | (none, b') => (some (k + 1, cap'), b')
          | (some _, b') => methodRetryNotify dump calls nows us fuel (k + 1) b' cap'

/-- The method-based `Retry` (src/unnamed/part_000 lines 81-131). It copies
the receiver into a fresh local scheduler value
(`b := backoff.ExponentialBackOff(*backOffSettings)`), lets the backoff
loop reset and mutate that copy, and finally returns `permError` if set,
else `tempError`, else nil, with the response and attempt count. The result
is the pair of (the returned triple — `none` when the run crashes or
exceeds `fuel` — together with the final state of the local copy `b`) and
the final state of the receiver: the method contains no write through
`backOffSettings`, so the receiver's final state is its initial value. -/
def methodRetry (backOffSettings : ExponentialBackOff) (dump : Response → String)
    (calls : Nat → TriCallResult) (resetNow : ℚ) (nows us : Nat → ℚ) (fuel : Nat) :
    (Option (Option Response × Nat × Option GoError) × ExponentialBackOff) ×
      ExponentialBackOff :=
  let b := backOffSettings
  let loopOut := methodRetryNotify dump calls nows us fuel 0 (ebReset b resetNow)
    (none, none, none)
  let result := match loopOut.1 with
    | none => none
    | some (attempts, (resp, tempError, permError)) =>
        match permError, tempError with
        | some pe, _ => some (resp, attempts, some pe)
        | none, some te => some (resp, attempts, some te)
        | none, none => some (resp, attempts, none)
  ((result, loopOut.2), backOffSettings)

/-- C10: the method-based `Retry` first copies the receiver's settings into
a fresh local scheduler value and runs the backoff loop on the copy: for
every receiver, operation, clock and jitter history, the receiver's fields
(configuration and running state alike) after `Retry` returns equal its
fields before, and a second sequential `Retry` on the same receiver value —
no explicit reset in between — behaves identically to the first. -/
theorem method_retry_receiver_unchanged (backOffSettings : ExponentialBackOff)
    (dump : Response → String) (calls : Nat → TriCallResult) (resetNow : ℚ)
    (nows us : Nat → ℚ) (fuel : Nat) :
    (methodRetry backOffSettings dump calls resetNow nows us fuel).2 = backOffSettings ∧
    methodRetry (methodRetry backOffSettings dump calls resetNow nows us fuel).2
        dump calls resetNow nows us fuel =
      methodRetry backOffSettings dump calls resetNow nows us fuel :=
  ⟨rfl, rfl⟩

end Httpbackoff
